import Mathlib

/-!
Verification of the ShopEasy product-catalog backend (`src/main.py`).

The development shallowly embeds the endpoint logic of `main.py`:
the filter dictionary built by `list_products`, the `_id → id`
response normalization, the `seed_products` precondition-checked
insertion, the `create_product` error handling and the `/test`
diagnostic endpoint.  The document store itself (`database.py`,
pymongo/MongoDB) is an external collaborator; where a claim depends
on its behaviour, that behaviour is modelled from the specification
and marked as such in the doc comment.
-/

namespace ShopEasy

/-- JSON-ish values stored in product records.  `vOid h` models a BSON
`ObjectId` whose canonical string form (`str(oid)` in Python) is `h`. -/
inductive Value where
  | vStr (s : String)
  | vNum (q : ℚ)
  | vBool (b : Bool)
  | vInt (n : Int)
  | vOid (hex : String)
deriving DecidableEq, Repr

/-- A record (Python `dict`) as an association list; Python dicts have
unique keys, so lookup, deletion and update below agree with dict
semantics.  (Key *order* inside a record is not observed by any claim,
so `setKey` may move an updated key to the end.) -/
abbrev Record := List (String × Value)

/-- `d.get(k)`: the value stored under key `k`, if any. -/
def getKey (d : Record) (k : String) : Option Value :=
  (d.find? (fun p => p.1 == k)).map (·.2)

/-- `d.pop(k)` (the removal part): drop every binding of key `k`. -/
def eraseKey (d : Record) (k : String) : Record :=
  d.filter (fun p => p.1 != k)

/-- `d[k] = v`: bind `k` to `v`, dropping any previous binding. -/
def setKey (d : Record) (k : String) (v : Value) : Record :=
  eraseKey d k ++ [(k, v)]

/-- The per-record normalization step of `list_products`
(main.py lines 84–86): if `d["_id"]` holds an `ObjectId`, remove it and
store its string form under `"id"`; otherwise leave `d` unchanged. -/
def normalizeRecord (d : Record) : Record :=
  match getKey d "_id" with
  | some (Value.vOid h) => setKey (eraseKey d "_id") "id" (Value.vStr h)
  | _ => d

/-- The normalization loop of `list_products` over the fetched documents. -/
def normalizeDocs (ds : List Record) : List Record :=
  ds.map normalizeRecord

theorem getKey_cons (p : String × Value) (d : Record) (k : String) :
    getKey (p :: d) k = if p.1 = k then some p.2 else getKey d k := by
  by_cases h : p.1 = k <;> simp [getKey, h]

theorem eraseKey_cons (p : String × Value) (d : Record) (k : String) :
    eraseKey (p :: d) k = if p.1 = k then eraseKey d k else p :: eraseKey d k := by
  by_cases h : p.1 = k <;> simp [eraseKey, List.filter_cons, h]

theorem getKey_eraseKey_self (d : Record) (k : String) :
    getKey (eraseKey d k) k = none := by
  induction d with
  | nil => rfl
  | cons p d ih =>
      rw [eraseKey_cons]
      by_cases h : p.1 = k
      · simpa [h] using ih
      · rw [if_neg h, getKey_cons, if_neg h]; exact ih

theorem getKey_eraseKey_ne (d : Record) (k k' : String) (h : k' ≠ k) :
    getKey (eraseKey d k) k' = getKey d k' := by
  induction d with
  | nil => rfl
  | cons p d ih =>
      rw [eraseKey_cons, getKey_cons]
      by_cases hp : p.1 = k
      · have hp' : ¬ p.1 = k' := fun hk => h (hk ▸ hp ▸ rfl)
        rw [if_pos hp, if_neg hp']
        exact ih
      · rw [if_neg hp, getKey_cons]
        by_cases hp' : p.1 = k'
        · rw [if_pos hp', if_pos hp']
        · rw [if_neg hp', if_neg hp']; exact ih

theorem getKey_setKey_self (d : Record) (k : String) (v : Value) :
    getKey (setKey d k v) k = some v := by
  unfold setKey getKey
  rw [List.find?_append]
  have h := getKey_eraseKey_self d k
  unfold getKey at h
  cases hf : (eraseKey d k).find? (fun p => p.1 == k) with
  | none => simp
  | some p => rw [hf] at h; simp at h

theorem getKey_setKey_ne (d : Record) (k k' : String) (v : Value) (h : k' ≠ k) :
    getKey (setKey d k v) k' = getKey d k' := by
  unfold setKey getKey
  rw [List.find?_append]
  have hke : (k == k') = false := by
    simp only [beq_eq_false_iff_ne]; exact fun hk => h hk.symm
  have h2 := getKey_eraseKey_ne d k k' h
  unfold getKey at h2
  cases hf : (eraseKey d k).find? (fun p => p.1 == k') with
  | none =>
      rw [hf] at h2
      simpa [hke] using h2
  | some p =>
      rw [hf] at h2
      simpa using h2

theorem normalizeRecord_of_oid (d : Record) (h : String)
    (hd : getKey d "_id" = some (Value.vOid h)) :
    normalizeRecord d = setKey (eraseKey d "_id") "id" (Value.vStr h) := by
  unfold normalizeRecord
  rw [hd]

theorem normalizeRecord_of_not_oid (d : Record)
    (hd : ∀ h : String, getKey d "_id" ≠ some (Value.vOid h)) :
    normalizeRecord d = d := by
  unfold normalizeRecord
  cases hg : getKey d "_id" with
  | none => rfl
  | some v =>
      cases v with
      | vOid h => exact absurd hg (hd h)
      | vStr s => rfl
      | vNum q => rfl
      | vBool b => rfl
      | vInt n => rfl

theorem normalizeRecord_no_oid_after (d : Record) :
    ∀ h : String, getKey (normalizeRecord d) "_id" ≠ some (Value.vOid h) := by
  intro h
  unfold normalizeRecord
  cases hg : getKey d "_id" with
  | none => rw [hg]; exact fun hc => by cases hc
  | some v =>
      cases v with
      | vOid h' =>
          rw [getKey_setKey_ne _ _ _ _ (by decide), getKey_eraseKey_self]
          exact fun hc => by cases hc
      | vStr s => rw [hg]; exact fun hc => by cases hc
      | vNum q => rw [hg]; exact fun hc => by cases hc
      | vBool b => rw [hg]; exact fun hc => by cases hc
      | vInt n => rw [hg]; exact fun hc => by cases hc

theorem normalizeRecord_idem (d : Record) :
    normalizeRecord (normalizeRecord d) = normalizeRecord d :=
  normalizeRecord_of_not_oid _ (normalizeRecord_no_oid_after d)

/-! ### Pattern matching semantics of the document store

`list_products` sends `{"$regex": q, "$options": "i"}` conditions to the
store; the matching itself happens in MongoDB, outside this repository.
It is modelled here from the spec: a case-insensitive pattern search
anywhere in the field's string.  The spec (§4.1) states that pattern
metacharacters in `q` are passed through as pattern syntax, not escaped;
the model implements literal characters plus the `.` any-character
wildcard as a representative fragment of that syntax. -/

/-- One token of a pattern: a literal character or the `.` wildcard. -/
inductive PatTok where
  | wild
  | lit (c : Char)
deriving DecidableEq, Repr

/-- Modelled from the spec: parse a pattern string, treating `.` as the
any-character wildcard and every other character as a literal. -/
def parsePattern (p : List Char) : List PatTok :=
  p.map (fun c => if c = '.' then PatTok.wild else PatTok.lit c)

def tokMatches : PatTok → Char → Bool
  | PatTok.wild, _ => true
  | PatTok.lit c, d => c == d

/-- Does the pattern match a prefix of the text? -/
def matchesAt : List PatTok → List Char → Bool
  | [], _ => true
  | _ :: _, [] => false
  | t :: ts, c :: cs => tokMatches t c && matchesAt ts cs

/-- Does the pattern match anywhere in the text? -/
def searchPat (p : List PatTok) : List Char → Bool
  | [] => matchesAt p []
  | c :: cs => matchesAt p (c :: cs) || searchPat p cs

/-- The characters of a string, lower-cased. -/
def lowerStr (s : String) : List Char :=
  s.data.map Char.toLower

/-- Modelled from the spec: the store's `$regex` condition with the `i`
option — case-insensitive pattern search anywhere in `text`. -/
def regexMatchCI (pattern text : String) : Bool :=
  searchPat (parsePattern (lowerStr pattern)) (lowerStr text)

/-- `needle` occurs in `hay` as a case-insensitive substring (the
spec's wording for the intended text-match semantics). -/
def substrCI (needle hay : String) : Prop :=
  lowerStr needle <:+: lowerStr hay

instance (needle hay : String) : Decidable (substrCI needle hay) := by
  unfold substrCI; infer_instance

theorem matchesAt_lit_iff (q s : List Char) (hq : '.' ∉ q) :
    matchesAt (parsePattern q) s = true ↔ q <+: s := by
  induction q generalizing s with
  | nil => simp [parsePattern, matchesAt]
  | cons c q ih =>
      have hc : c ≠ '.' := fun hc => hq (hc ▸ List.mem_cons_self c q)
      have hq' : '.' ∉ q := fun hm => hq (List.mem_cons_of_mem c hm)
      cases s with
      | nil =>
          simp [parsePattern, matchesAt, hc]
      | cons d s =>
          simp only [parsePattern, List.map_cons, if_neg hc, matchesAt,
            tokMatches, Bool.and_eq_true, beq_iff_eq, List.cons_prefix_cons]
          exact and_congr Iff.rfl (by simpa [parsePattern] using ih s hq')

theorem searchPat_lit_iff (q s : List Char) (hq : '.' ∉ q) :
    searchPat (parsePattern q) s = true ↔ q <:+: s := by
  induction s with
  | nil =>
      simp only [searchPat, List.infix_nil]
      rw [matchesAt_lit_iff q [] hq]
      simp
  | cons c s ih =>
      simp only [searchPat, Bool.or_eq_true, List.infix_cons_iff]
      rw [matchesAt_lit_iff _ _ hq, ih]

/-- Lower-casing never produces a `.` from a different character
(`Char.toLower` only moves upper-case basic-latin letters). -/
theorem toLower_ne_dot (c : Char) (h : c ≠ '.') : Char.toLower c ≠ '.' := by
  unfold Char.toLower
  show (if c.toNat ≥ 65 ∧ c.toNat ≤ 90 then Char.ofNat (c.toNat + 32) else c) ≠ '.'
  split
  · next hc =>
      obtain ⟨h1, h2⟩ := hc
      obtain ⟨n, hn⟩ : ∃ n, c.toNat = n := ⟨_, rfl⟩
      rw [hn] at h1 h2 ⊢
      interval_cases n <;> decide
  · exact h

theorem dot_not_mem_lowerStr (s : String) (h : '.' ∉ s.data) :
    '.' ∉ lowerStr s := by
  unfold lowerStr
  intro hm
  obtain ⟨c, hc, hlc⟩ := List.mem_map.mp hm
  by_cases hcd : c = '.'
  · exact h (hcd ▸ hc)
  · exact toLower_ne_dot c hcd hlc

/-! ### The filter built by `list_products` (main.py lines 73–81) -/

/-- One `{field: {"$regex": pattern, "$options": options}}` condition. -/
structure RegexCond where
  field : String
  pattern : String
  options : String
deriving DecidableEq, Repr

/-- The `filter_dict` built by `list_products`: an optional exact-match
on `"category"` and an optional `"$or"` list of regex conditions. -/
structure FilterDict where
  categoryEq : Option String
  orConds : Option (List RegexCond)
deriving DecidableEq, Repr

/-- Python truthiness on an optional string: `if s:` is false for `None`
and for the empty string. -/
def truthy : Option String → Option String
  | some s => if s = "" then none else some s
  | none => none

/-- The filter construction of `list_products` (main.py lines 73–81):
start from `{}`; `if category:` add `{"category": category}`;
`if q:` add `{"$or": [{"title": {"$regex": q, "$options": "i"}},
{"description": {"$regex": q, "$options": "i"}}]}`. -/
def build_filter (category q : Option String) : FilterDict :=
  { categoryEq := truthy category
  , orConds := (truthy q).map (fun qs =>
      [⟨"title", qs, "i"⟩, ⟨"description", qs, "i"⟩]) }

/-- Modelled from the spec: how the store evaluates one regex condition
on a record — the field must hold a string the pattern matches
(case-insensitively, under option `"i"`). -/
def regexCondMatches (rc : RegexCond) (d : Record) : Bool :=
  match getKey d rc.field with
  | some (Value.vStr s) =>
      if rc.options = "i" then regexMatchCI rc.pattern s
      else searchPat (parsePattern rc.pattern.data) s.data
  | _ => false

/-- Modelled from the spec: the store's evaluation of the category
clause of a filter — absent means match-all, present means the stored
`"category"` field equals the filter value exactly. -/
def categoryClauseMatches (f : FilterDict) (d : Record) : Bool :=
  match f.categoryEq with
  | some c => getKey d "category" == some (Value.vStr c)
  | none => true

/-- Modelled from the spec: the store's evaluation of the `"$or"` clause
of a filter — absent means match-all, present means at least one of the
listed conditions matches. -/
def orClauseMatches (f : FilterDict) (d : Record) : Bool :=
  match f.orConds with
  | some conds => conds.any (fun rc => regexCondMatches rc d)
  | none => true

/-- Modelled from the spec: a record matches a filter iff it matches
every clause (top-level keys of a filter document are conjoined). -/
def filterMatches (f : FilterDict) (d : Record) : Bool :=
  categoryClauseMatches f d && orClauseMatches f d

/-- Modelled from the spec: `database.py`'s `get_documents` (not under
`src/`) — return the records of the collection matching the filter, the
limit strictly bounding how many are returned. -/
def get_documents (coll : List Record) (f : FilterDict) (limit : Nat) : List Record :=
  (coll.filter (filterMatches f)).take limit

/-- `list_products` (main.py lines 70–89): build the filter from the
`category` and `q` parameters, fetch up to `limit` documents, then
normalize `_id` into a string `id`; returns the `"items"` list. -/
def list_products (coll : List Record) (category q : Option String)
    (limit : Nat) : List Record :=
  normalizeDocs (get_documents coll (build_filter category q) limit)

/-! ### Seeding (`seed_products`, main.py lines 92–148) -/

/-- Modelled from the spec: `database.py`'s `create_document` (not under
`src/`), insertion side — append the record with a fresh store-assigned
`ObjectId` under `"_id"`. -/
def insert_document (coll : List Record) (oid : String) (item : Record) :
    List Record :=
  coll ++ [setKey item "_id" (Value.vOid oid)]

/-- The fixed demonstration dataset of `seed_products`
(main.py lines 98–143). -/
def demo_items : List Record :=
  [ [ ("title", Value.vStr "Wireless Noise-Canceling Headphones")
    , ("description", Value.vStr "Premium over-ear headphones with 30h battery and ANC.")
    , ("price", Value.vNum (199.99 : ℚ))
    , ("category", Value.vStr "Electronics")
    , ("in_stock", Value.vBool true)
    , ("brand", Value.vStr "SoundMax")
    , ("image_url", Value.vStr "https://images.unsplash.com/photo-1518443751420-7e1b34b09b91?q=80&w=1200&auto=format&fit=crop")
    , ("rating", Value.vNum (4.6 : ℚ))
    , ("reviews_count", Value.vInt 321) ]
  , [ ("title", Value.vStr "Smart Fitness Watch")
    , ("description", Value.vStr "Track health metrics with AMOLED display and GPS.")
    , ("price", Value.vNum (129.0 : ℚ))
    , ("category", Value.vStr "Wearables")
    , ("in_stock", Value.vBool true)
    , ("brand", Value.vStr "FitPulse")
    , ("image_url", Value.vStr "https://images.unsplash.com/photo-1511732351157-1865efcb7b7b?q=80&w=1200&auto=format&fit=crop")
    , ("rating", Value.vNum (4.4 : ℚ))
    , ("reviews_count", Value.vInt 189) ]
  , [ ("title", Value.vStr "Ergonomic Office Chair")
    , ("description", Value.vStr "Adjustable lumbar support, breathable mesh, smooth wheels.")
    , ("price", Value.vNum (249.5 : ℚ))
    , ("category", Value.vStr "Furniture")
    , ("in_stock", Value.vBool true)
    , ("brand", Value.vStr "ErgoSeat")
    , ("image_url", Value.vStr "https://images.unsplash.com/photo-1503602642458-232111445657?q=80&w=1200&auto=format&fit=crop")
    , ("rating", Value.vNum (4.5 : ℚ))
    , ("reviews_count", Value.vInt 97) ]
  , [ ("title", Value.vStr "Stainless Steel Water Bottle")
    , ("description", Value.vStr "Insulated 1L bottle keeps drinks cold for 24h.")
    , ("price", Value.vNum (24.99 : ℚ))
    , ("category", Value.vStr "Outdoors")
    , ("in_stock", Value.vBool true)
    , ("brand", Value.vStr "AquaPro")
    , ("image_url", Value.vStr "https://images.unsplash.com/photo-1526405078732-81b3b1b12f39?q=80&w=1200&auto=format&fit=crop")
    , ("rating", Value.vNum (4.8 : ℚ))
    , ("reviews_count", Value.vInt 512) ]
  ]

/-- The JSON body returned by `POST /api/seed`. -/
structure SeedResponse where
  seeded : Bool
  message : Option String
  count : Option Nat
deriving DecidableEq, Repr

/-- `seed_products` (main.py lines 92–148): count the collection's
records (`count_documents({})` = length); if positive, insert nothing;
otherwise insert the demo items one at a time (each getting a fresh
store-assigned id from `oids`) and report the count.  Returns the new
collection contents and the response body. -/
def seed_products (coll : List Record) (oids : Nat → String) :
    List Record × SeedResponse :=
  if coll.length > 0 then
    (coll, { seeded := false, message := some "Products already exist", count := none })
  else
    ( demo_items.enum.foldl (fun acc p => insert_document acc (oids p.1) p.2) coll
    , { seeded := true, message := none, count := some demo_items.length } )

/-! ### `create_product` (main.py lines 62–68) -/

/-- An endpoint outcome: a JSON body, or an `HTTPException` with a
status code and a detail string. -/
inductive ApiResult (α : Type) where
  | ok (a : α)
  | httpError (status : Nat) (detail : String)
deriving DecidableEq, Repr

/-- `create_product`: call `create_document` and wrap its returned id in
`{"id": ...}`; any exception `e` becomes
`HTTPException(status_code=500, detail=str(e))`.  The store call's
outcome (the generated id string, or the exception's message) is the
`outcome` argument; `create_document` itself lives in `database.py`,
outside `src/`, and per the spec returns a generated identifier. -/
def create_product (outcome : Except String String) : ApiResult Record :=
  match outcome with
  | Except.ok inserted_id => ApiResult.ok [("id", Value.vStr inserted_id)]
  | Except.error e => ApiResult.httpError 500 e

/-! ### `test_database` (main.py lines 25–56) -/

/-- Behaviour of the module-level `db` handle as observed by `/test`:
`db` is `None`; touching `db` raises; or `db` is usable and
`list_collection_names()` either returns names or raises.  `nameAttr`
is `db.name` when the attribute exists. -/
inductive DbState where
  | uninitialized
  | accessError (msg : String)
  | connected (nameAttr : Option String) (listResult : Except String (List String))

/-- The diagnostic mapping returned by `GET /test`. -/
structure TestResponse where
  backend : String
  database : String
  database_url : Option String
  database_name : Option String
  connection_status : String
  collections : List String
deriving DecidableEq, Repr

/-- Python's `s[:50]` on a string: the first 50 characters. -/
def pySlice50 (s : String) : String :=
  String.mk (s.data.take 50)

/-- `test_database` (main.py lines 25–56): build the default response;
if `db` is usable, mark it available and try `list_collection_names()`
(keeping the first 10 names, or rendering the exception, truncated to
50 characters, into the `database` status); exceptions from touching
`db` are caught the same way; finally overwrite `database_url` /
`database_name` with environment-presence flags. -/
def test_database (st : DbState) (urlSet nameSet : Bool) : TestResponse :=
  let r0 : TestResponse :=
    { backend := "✅ Running",
      database := "❌ Not Available",
      database_url := none,
      database_name := none,
      connection_status := "Not Connected",
      collections := [] }
  let r1 :=
    match st with
    | DbState.uninitialized =>
        { r0 with database := "⚠️  Available but not initialized" }
    | DbState.accessError e =>
        { r0 with database := "❌ Error: " ++ pySlice50 e }
    | DbState.connected nameAttr res =>
        let r2 :=
          { r0 with
            database := "✅ Available",
            database_url := some "✅ Configured",
            database_name := some (nameAttr.getD "✅ Connected"),
            connection_status := "Connected" }
        match res with
        | Except.ok names =>
            { r2 with
              collections := names.take 10,
              database := "✅ Connected & Working" }
        | Except.error e =>
            { r2 with database := "⚠️  Connected but Error: " ++ pySlice50 e }
  { r1 with
    database_url := some (if urlSet then "✅ Set" else "❌ Not Set"),
    database_name := some (if nameSet then "✅ Set" else "❌ Not Set") }

/-! ## Claims -/

/-- Helper: for a non-empty query, the `$or` clause of the built filter
evaluates to the disjunction of the two regex matches on the record's
string `title` and `description`. -/
theorem orClause_eval (Q : String) (hQ : Q ≠ "") (d : Record) (t ds : String)
    (ht : getKey d "title" = some (Value.vStr t))
    (hds : getKey d "description" = some (Value.vStr ds)) :
    orClauseMatches (build_filter none (some Q)) d
      = (regexMatchCI Q t || regexMatchCI Q ds) := by
  have horc : (build_filter none (some Q)).orConds
      = some [⟨"title", Q, "i"⟩, ⟨"description", Q, "i"⟩] := by
    simp [build_filter, truthy, if_neg hQ]
  unfold orClauseMatches
  rw [horc]
  show ([RegexCond.mk "title" Q "i", RegexCond.mk "description" Q "i"].any
      (fun rc => regexCondMatches rc d)) = (regexMatchCI Q t || regexMatchCI Q ds)
  simp [List.any_cons, regexCondMatches, ht, hds]

/-- C1 as stated is false: the query is passed through as a regex
pattern, so the query `"."` (the any-character wildcard) matches a
record whose title `"A"` and description `"B"` do not contain `"."` as
a (case-insensitive) substring. -/
theorem c1_counterexample :
    orClauseMatches (build_filter none (some "."))
        [("title", Value.vStr "A"), ("description", Value.vStr "B")] = true
      ∧ ¬ substrCI "." "A" ∧ ¬ substrCI "." "B" := by
  refine ⟨by decide, by decide, by decide⟩

/-- C1 (amended): for every non-empty query `Q`, the filter holds a
`$or` of exactly the two case-insensitive regex conditions on `title`
and `description`; a record with string title and description matches
that condition iff the pattern `Q` matches (case-insensitively,
anywhere) in title or description — which, when `Q` contains no pattern
metacharacter, is exactly `Q` occurring as a case-insensitive substring
of title or description. -/
theorem c1_amended (Q : String) (hQ : Q ≠ "") (d : Record) (t ds : String)
    (ht : getKey d "title" = some (Value.vStr t))
    (hds : getKey d "description" = some (Value.vStr ds)) :
    (build_filter none (some Q)).orConds
        = some [⟨"title", Q, "i"⟩, ⟨"description", Q, "i"⟩]
      ∧ (orClauseMatches (build_filter none (some Q)) d = true ↔
          (regexMatchCI Q t = true ∨ regexMatchCI Q ds = true))
      ∧ ('.' ∉ Q.data →
          (orClauseMatches (build_filter none (some Q)) d = true ↔
            (substrCI Q t ∨ substrCI Q ds))) := by
  refine ⟨by simp [build_filter, truthy, if_neg hQ], ?_, ?_⟩
  · rw [orClause_eval Q hQ d t ds ht hds]
    simp
  · intro hdot
    rw [orClause_eval Q hQ d t ds ht hds]
    have hdot' : '.' ∉ lowerStr Q := dot_not_mem_lowerStr Q hdot
    unfold regexMatchCI substrCI
    rw [Bool.or_eq_true, searchPat_lit_iff _ _ hdot', searchPat_lit_iff _ _ hdot']

/-- C1 amended, witnessed at `Q = "watch"` on the seeded watch record:
the structural shape, the regex-match reading, and (since `"watch"` has
no metacharacter) the substring reading all hold. -/
theorem c1_amended_witness :
    (build_filter none (some "watch")).orConds
        = some [⟨"title", "watch", "i"⟩, ⟨"description", "watch", "i"⟩]
      ∧ (orClauseMatches (build_filter none (some "watch"))
            [("title", Value.vStr "Smart Fitness Watch"),
             ("description", Value.vStr "Track health metrics with AMOLED display and GPS.")] = true ↔
          (regexMatchCI "watch" "Smart Fitness Watch" = true ∨
           regexMatchCI "watch" "Track health metrics with AMOLED display and GPS." = true))
      ∧ ('.' ∉ "watch".data →
          (orClauseMatches (build_filter none (some "watch"))
              [("title", Value.vStr "Smart Fitness Watch"),
               ("description", Value.vStr "Track health metrics with AMOLED display and GPS.")] = true ↔
            (substrCI "watch" "Smart Fitness Watch" ∨
             substrCI "watch" "Track health metrics with AMOLED display and GPS."))) :=
  c1_amended "watch" (by decide)
    [("title", Value.vStr "Smart Fitness Watch"),
     ("description", Value.vStr "Track health metrics with AMOLED display and GPS.")]
    "Smart Fitness Watch" "Track health metrics with AMOLED display and GPS."
    (by decide) (by decide)

/-- C2: for every non-empty category `C`, the built filter carries the
exact (case-sensitive, by value equality) match `{"category": C}`, and
every record whose stored category field is not the string `C` fails the
filter, whatever the query parameter is. -/
theorem c2_category_exact (C : String) (hC : C ≠ "") (q : Option String) :
    (build_filter (some C) q).categoryEq = some C
      ∧ ∀ d : Record, getKey d "category" ≠ some (Value.vStr C) →
          filterMatches (build_filter (some C) q) d = false := by
  constructor
  · simp [build_filter, truthy, if_neg hC]
  · intro d hd
    unfold filterMatches categoryClauseMatches
    have hcat : (build_filter (some C) q).categoryEq = some C := by
      simp [build_filter, truthy, if_neg hC]
    rw [hcat]
    have : (getKey d "category" == some (Value.vStr C)) = false := by
      simpa using hd
    simp [this]

/-- C2 witnessed at `C = "Electronics"` on a record of category
`"electronics"` (a case difference): the record is excluded. -/
theorem c2_category_exact_witness :
    (build_filter (some "Electronics") none).categoryEq = some "Electronics"
      ∧ filterMatches (build_filter (some "Electronics") none)
          [("category", Value.vStr "electronics")] = false := by
  have h := c2_category_exact "Electronics" (by decide) none
  exact ⟨h.1, h.2 [("category", Value.vStr "electronics")] (by decide)⟩

/-- C3: with both a non-empty category and a non-empty query, a record
matches the built filter iff it matches the category-only filter and the
query-only filter; consequently membership in the filtered result set is
exactly the intersection of the two one-parameter result sets. -/
theorem c3_and_combination (C Q : String) (hC : C ≠ "") (hQ : Q ≠ "") :
    (∀ d : Record,
        filterMatches (build_filter (some C) (some Q)) d = true ↔
          (filterMatches (build_filter (some C) none) d = true ∧
           filterMatches (build_filter none (some Q)) d = true))
      ∧ ∀ (coll : List Record) (d : Record),
          d ∈ coll.filter (filterMatches (build_filter (some C) (some Q))) ↔
            (d ∈ coll.filter (filterMatches (build_filter (some C) none)) ∧
             d ∈ coll.filter (filterMatches (build_filter none (some Q)))) := by
  have hpt : ∀ d : Record,
      filterMatches (build_filter (some C) (some Q)) d = true ↔
        (filterMatches (build_filter (some C) none) d = true ∧
         filterMatches (build_filter none (some Q)) d = true) := by
    intro d
    have e1 : categoryClauseMatches (build_filter (some C) (some Q)) d
        = categoryClauseMatches (build_filter (some C) none) d := rfl
    have e2 : orClauseMatches (build_filter (some C) (some Q)) d
        = orClauseMatches (build_filter none (some Q)) d := rfl
    have e3 : orClauseMatches (build_filter (some C) none) d = true := rfl
    have e4 : categoryClauseMatches (build_filter none (some Q)) d = true := rfl
    unfold filterMatches
    rw [e1, e2, e3, e4, Bool.and_true, Bool.true_and, Bool.and_eq_true]
  refine ⟨hpt, fun coll d => ?_⟩
  simp only [List.mem_filter]
  constructor
  · rintro ⟨hm, hf⟩
    obtain ⟨h1, h2⟩ := (hpt d).mp hf
    exact ⟨⟨hm, h1⟩, ⟨hm, h2⟩⟩
  · rintro ⟨⟨hm, h1⟩, ⟨_, h2⟩⟩
    exact ⟨hm, (hpt d).mpr ⟨h1, h2⟩⟩

/-- C3 witnessed at `C = "Wearables"`, `Q = "watch"` on the demo watch
record inside a two-record collection. -/
theorem c3_and_combination_witness :
    (filterMatches (build_filter (some "Wearables") (some "watch"))
        [("title", Value.vStr "Smart Fitness Watch"),
         ("category", Value.vStr "Wearables")] = true ↔
      (filterMatches (build_filter (some "Wearables") none)
          [("title", Value.vStr "Smart Fitness Watch"),
           ("category", Value.vStr "Wearables")] = true ∧
       filterMatches (build_filter none (some "watch"))
          [("title", Value.vStr "Smart Fitness Watch"),
           ("category", Value.vStr "Wearables")] = true)) :=
  (c3_and_combination "Wearables" "watch" (by decide) (by decide)).1
    [("title", Value.vStr "Smart Fitness Watch"), ("category", Value.vStr "Wearables")]

/-- C4: on a record holding an `ObjectId` under `"_id"`, normalization
removes `"_id"`, adds the string key `"id"` holding the id's canonical
string form, and leaves every field other than `"_id"` and the inserted
`"id"` unchanged. -/
theorem c4_normalize_oid (d : Record) (h : String)
    (hd : getKey d "_id" = some (Value.vOid h)) :
    getKey (normalizeRecord d) "_id" = none
      ∧ getKey (normalizeRecord d) "id" = some (Value.vStr h)
      ∧ ∀ k : String, k ≠ "_id" → k ≠ "id" →
          getKey (normalizeRecord d) k = getKey d k := by
  rw [normalizeRecord_of_oid d h hd]
  refine ⟨?_, ?_, ?_⟩
  · rw [getKey_setKey_ne _ _ _ _ (by decide), getKey_eraseKey_self]
  · exact getKey_setKey_self _ _ _
  · intro k hk1 hk2
    rw [getKey_setKey_ne _ _ _ _ hk2, getKey_eraseKey_ne _ _ _ hk1]

/-- C4 witnessed on a concrete record with an `ObjectId` and one other
field. -/
theorem c4_normalize_oid_witness :
    getKey (normalizeRecord
        [("_id", Value.vOid "64b0c0ffee"), ("title", Value.vStr "T")]) "_id" = none
      ∧ getKey (normalizeRecord
          [("_id", Value.vOid "64b0c0ffee"), ("title", Value.vStr "T")]) "id"
          = some (Value.vStr "64b0c0ffee")
      ∧ getKey (normalizeRecord
          [("_id", Value.vOid "64b0c0ffee"), ("title", Value.vStr "T")]) "title"
          = getKey [("_id", Value.vOid "64b0c0ffee"), ("title", Value.vStr "T")] "title" := by
  have h := c4_normalize_oid
    [("_id", Value.vOid "64b0c0ffee"), ("title", Value.vStr "T")] "64b0c0ffee" (by decide)
  exact ⟨h.1, h.2.1, h.2.2 "title" (by decide) (by decide)⟩

/-- C5: the `_id → id` normalization of the fetched documents is
idempotent — running the loop a second time changes nothing, because a
normalized record no longer holds an `ObjectId` under `"_id"`. -/
theorem c5_normalize_idempotent (ds : List Record) :
    normalizeDocs (normalizeDocs ds) = normalizeDocs ds := by
  unfold normalizeDocs
  rw [List.map_map]
  exact List.map_congr_left (fun d _ => normalizeRecord_idem d)

/-- C6: on an empty collection, seeding inserts exactly the 4 demo
records one at a time (each with a store-assigned id) and reports
`{"seeded": true, "count": 4}`; on a non-empty collection it inserts
nothing and reports `{"seeded": false}` with a message. -/
theorem c6_seed (coll : List Record) (oids : Nat → String) :
    (coll = [] →
        (seed_products coll oids).1
            = demo_items.enum.map (fun p => setKey p.2 "_id" (Value.vOid (oids p.1)))
          ∧ (seed_products coll oids).1.length = 4
          ∧ (seed_products coll oids).2
              = { seeded := true, message := none, count := some 4 })
      ∧ (0 < coll.length →
          (seed_products coll oids).1 = coll
            ∧ (seed_products coll oids).2
                = { seeded := false, message := some "Products already exist",
                    count := none }) := by
  constructor
  · rintro rfl
    exact ⟨rfl, rfl, rfl⟩
  · intro hpos
    have hif : coll.length > 0 := hpos
    unfold seed_products
    rw [if_pos hif]
    exact ⟨rfl, rfl⟩

/-- C6 witnessed: seeding an empty collection (with a concrete id
supply) yields 4 records and `seeded := true`; seeding the result again
inserts nothing and yields `seeded := false`. -/
theorem c6_seed_witness :
    (seed_products [] (fun n => toString n)).1.length = 4
      ∧ (seed_products [] (fun n => toString n)).2
          = { seeded := true, message := none, count := some 4 }
      ∧ (seed_products (seed_products [] (fun n => toString n)).1
            (fun n => toString n)).1
          = (seed_products [] (fun n => toString n)).1
      ∧ (seed_products (seed_products [] (fun n => toString n)).1
            (fun n => toString n)).2
          = { seeded := false, message := some "Products already exist",
              count := none } := by
  have h1 := (c6_seed [] (fun n => toString n)).1 rfl
  have h2 := (c6_seed (seed_products [] (fun n => toString n)).1
    (fun n => toString n)).2 (by decide)
  exact ⟨h1.2.1, h1.2.2, h2.1, h2.2⟩

/-- C7: after seeding an empty store, listing with `q = "watch"` and no
category returns exactly one item, titled "Smart Fitness Watch"; the
match is on the title — `"watch"` is a case-insensitive substring of the
title but occurs nowhere in the watch's description. -/
theorem c7_watch_query (oids : Nat → String) :
    (list_products (seed_products [] oids).1 none (some "watch") 50).map
        (fun d => getKey d "title")
      = [some (Value.vStr "Smart Fitness Watch")]
    ∧ substrCI "watch" "Smart Fitness Watch"
    ∧ ¬ substrCI "watch" "Track health metrics with AMOLED display and GPS." :=
  ⟨rfl, by decide, by decide⟩

/-- C8: `create_product` wraps a successful insertion's id as
`{"id": s}`, and turns an insertion exception into
`HTTPException(500, detail = str(e))`. -/
theorem c8_create_product :
    (∀ i : String, create_product (Except.ok i)
        = ApiResult.ok [("id", Value.vStr i)])
      ∧ ∀ e : String, create_product (Except.error e)
          = ApiResult.httpError 500 e :=
  ⟨fun _ => rfl, fun _ => rfl⟩

/-- C9: `/test` always returns a diagnostic mapping (the function is
total and always reports the backend as running), and a caught exception
— from touching the handle or from `list_collection_names()` — is
rendered into the `database` status string truncated to its first 50
characters, never more. -/
theorem c9_test_database :
    (∀ (st : DbState) (urlSet nameSet : Bool),
        (test_database st urlSet nameSet).backend = "✅ Running")
      ∧ (∀ (e : String) (nameAttr : Option String) (urlSet nameSet : Bool),
          (test_database (DbState.connected nameAttr (Except.error e))
              urlSet nameSet).database
            = "⚠️  Connected but Error: " ++ pySlice50 e)
      ∧ (∀ (e : String) (urlSet nameSet : Bool),
          (test_database (DbState.accessError e) urlSet nameSet).database
            = "❌ Error: " ++ pySlice50 e)
      ∧ ∀ s : String, (pySlice50 s).length ≤ 50 := by
  refine ⟨?_, ?_, ?_, ?_⟩
  · intro st urlSet nameSet
    cases st with
    | uninitialized => rfl
    | accessError e => rfl
    | connected nameAttr res => cases res <;> rfl
  · intro e nameAttr urlSet nameSet; rfl
  · intro e urlSet nameSet; rfl
  · intro s
    show (s.data.take 50).length ≤ 50
    exact List.length_take_le 50 s.data

/-- C10 (implicit): a record whose `"_id"` is absent, or holds anything
other than an `ObjectId`, passes through normalization entirely
unchanged — no `"id"` key is added and the non-`ObjectId` `"_id"`
stays. -/
theorem c10_normalize_non_oid (d : Record)
    (hd : getKey d "_id" = none
        ∨ ∃ v, getKey d "_id" = some v ∧ ∀ h : String, v ≠ Value.vOid h) :
    normalizeRecord d = d := by
  apply normalizeRecord_of_not_oid
  intro h hc
  rcases hd with hnone | ⟨v, hv, hno⟩
  · rw [hnone] at hc; cases hc
  · rw [hv] at hc
    exact hno h (Option.some.injEq _ _ ▸ hc)

/-- C10 witnessed on a record whose `"_id"` holds a plain string: the
record is unchanged, keeping its `"_id"` and gaining no `"id"`. -/
theorem c10_normalize_non_oid_witness :
    normalizeRecord [("_id", Value.vStr "raw"), ("n", Value.vInt 3)]
      = [("_id", Value.vStr "raw"), ("n", Value.vInt 3)] :=
  c10_normalize_non_oid [("_id", Value.vStr "raw"), ("n", Value.vInt 3)]
    (Or.inr ⟨Value.vStr "raw", rfl, fun _ hc => Value.noConfusion hc⟩)

end ShopEasy
